import Mathlib

/-!
# Verification of the esquerydsl query-DSL renderer

A shallow embedding in Lean 4 of the Go package `esquerydsl`
(file `esquerydsl.go`, the version that supports the `nested_query` kind),
together with theorems checking the package's specification claims.

Modelling conventions:
* Go's `encoding/json` output is modelled by an explicit `JSON` syntax tree
  plus a serializer `jsonToString` reproducing `encoding/json`'s text output
  (struct fields in declaration order, map keys sorted, HTML-escaping of
  `<`, `>`, `&`, backslash/quote escapes).
* Go's `interface{}` clause values are modelled by the closed type `GoValue`
  covering the value shapes the package manipulates.
* A fallible Go computation returns `RResult`: `ok` (the marshalled JSON),
  `err` (a returned `*QueryTypeErr`), `gopanic` (a Go runtime panic:
  out-of-range index or failed unchecked type assertion).  Recursion through
  `interface{}` values is made structural with a fuel parameter; `outOfFuel`
  is the embedding artifact for exhausted fuel and corresponds to no Go
  behaviour (every terminating Go run is reproduced by any sufficiently
  large fuel).
* Go `int` is modelled by `Int` (only comparisons and literals are used, so
  64-bit wrap-around is irrelevant).
* Go passes `leafQuery` receivers by value, so the assignment
  `q.Value = strings.ToLower(s)` in `handleMarshalType` updates a local
  copy; the embedding mirrors this with a functional record update.
-/

namespace Esquerydsl

/-! ## JSON values, mirroring the output of `encoding/json` -/

mutual
inductive JSON where
  | jstr : String → JSON
  | jint : Int → JSON
  | jbool : Bool → JSON
  | jnull : JSON
  | jarr : JList → JSON
  | jobj : JFields → JSON
  deriving DecidableEq

inductive JList where
  | nil : JList
  | cons : JSON → JList → JList
  deriving DecidableEq

inductive JFields where
  | fnil : JFields
  | fcons : String → JSON → JFields → JFields
  deriving DecidableEq
end

def JList.ofList : List JSON → JList
  | [] => .nil
  | x :: xs => .cons x (JList.ofList xs)

def JFields.ofList : List (String × JSON) → JFields
  | [] => .fnil
  | (k, v) :: xs => .fcons k v (JFields.ofList xs)

/-- Build a JSON array from a Lean list. -/
def JSON.arr (xs : List JSON) : JSON := .jarr (JList.ofList xs)

/-- Build a JSON object from an ordered field list. -/
def JSON.obj (fs : List (String × JSON)) : JSON := .jobj (JFields.ofList fs)

/-- The keys of a JSON object node, in output order. -/
def JFields.keys : JFields → List String
  | .fnil => []
  | .fcons k _ rest => k :: JFields.keys rest

/-- Top-level keys of a JSON value (empty for non-objects). -/
def jsonTopKeys : JSON → List String
  | .jobj fs => fs.keys
  | _ => []

/-! ### Serializer, mirroring `encoding/json` text output -/

def hexDigit (n : Nat) : Char :=
  if n < 10 then Char.ofNat (48 + n) else Char.ofNat (87 + n)

/-- `encoding/json` string escaping for one character (default encoder:
quotes, backslash, control characters, and HTML-escaped `<`, `>`, `&`). -/
def escapeGoChar (c : Char) : String :=
  if c = '"' then "\\\""
  else if c = '\\' then "\\\\"
  else if c = '\n' then "\\n"
  else if c = '\r' then "\\r"
  else if c = '\t' then "\\t"
  else if c = '<' then "\\u003c"
  else if c = '>' then "\\u003e"
  else if c = '&' then "\\u0026"
  else if c.toNat < 32 then
    "\\u00" ++ String.mk [hexDigit (c.toNat / 16), hexDigit (c.toNat % 16)]
  else String.singleton c

def escapeGoString (s : String) : String :=
  String.join (s.data.map escapeGoChar)

mutual
def jsonToString : JSON → String
  | .jstr s => "\"" ++ escapeGoString s ++ "\""
  | .jint n => toString n
  | .jbool b => if b then "true" else "false"
  | .jnull => "null"
  | .jarr l => "[" ++ jlistToString l ++ "]"
  | .jobj f => "\x7b" ++ jfieldsToString f ++ "\x7d"

def jlistToString : JList → String
  | .nil => ""
  | .cons x .nil => jsonToString x
  | .cons x (.cons y rest) => jsonToString x ++ "," ++ jlistToString (.cons y rest)

def jfieldsToString : JFields → String
  | .fnil => ""
  | .fcons k v .fnil => "\"" ++ escapeGoString k ++ "\":" ++ jsonToString v
  | .fcons k v (.fcons k2 v2 rest) =>
      "\"" ++ escapeGoString k ++ "\":" ++ jsonToString v ++ "," ++
        jfieldsToString (.fcons k2 v2 rest)
end

/-! ## The kind registry (`QueryType` and `QueryType.String`) -/

/-- Go: `type QueryType int`. -/
abbrev QueryType := Int

/-- Go: `const ( Match QueryType = iota; ... )`. -/
def Match : QueryType := 0
def Term : QueryType := 1
def Terms : QueryType := 2
def Wildcard : QueryType := 3
def Range : QueryType := 4
def ExistsKind : QueryType := 5
def QueryString : QueryType := 6
def Nested : QueryType := 7
def NestedQuery : QueryType := 8

/-- Modelled from the spec: the `has_child` kind constant.  The constant and
its handling are absent from the sources provided (only the tests that use
`HasChild` are), so the next `iota` value after `NestedQuery` is used. -/
def HasChild : QueryType := 9

/-- Go: `type QueryTypeErr struct { typeVal QueryType }`. -/
structure QueryTypeErr where
  typeVal : QueryType
  deriving DecidableEq

/-- Go runtime panics reachable in this package. -/
inductive GoPanic where
  | indexOutOfRange : GoPanic
  | typeAssertionFailed : GoPanic
  deriving DecidableEq

/-- Outcome of a fallible marshalling step.  `outOfFuel` is the embedding's
termination artifact only (see the file header). -/
inductive RResult (α : Type) where
  | ok : α → RResult α
  | err : QueryTypeErr → RResult α
  | gopanic : GoPanic → RResult α
  | outOfFuel : RResult α
  deriving DecidableEq

def RResult.bind : RResult α → (α → RResult β) → RResult β
  | .ok a, f => f a
  | .err e, _ => .err e
  | .gopanic p, _ => .gopanic p
  | .outOfFuel, _ => .outOfFuel

def RResult.map (f : α → β) : RResult α → RResult β
  | .ok a => .ok (f a)
  | .err e => .err e
  | .gopanic p => .gopanic p
  | .outOfFuel => .outOfFuel

/-- Go: the `convs` array literal in `QueryType.String`. -/
def convs : List String :=
  ["match", "term", "terms", "wildcard", "range", "exists", "query_string",
   "nested", "nested_query"]

/-- Go: `func (qt QueryType) String() (string, error)`.  The bounds check is
`int(qt) > len(convs)` (note: `>`, not `>=`), after which `convs[qt]` is an
unchecked index: `qt = len(convs)` or a negative `qt` panics with an
index-out-of-range runtime error. -/
def queryTypeString (qt : QueryType) : RResult String :=
  if qt > (convs.length : Int) then .err { typeVal := qt }
  else if qt < 0 then .gopanic .indexOutOfRange
  else
    match convs.get? qt.toNat with
    | some s => .ok s
    | none => .gopanic .indexOutOfRange

/-! ## The escaper (`sanitizeElasticQueryField`) -/

/-- Go: the `reserved` token list, in source order. -/
def reserved : List String :=
  ["\\", "+", "=", "&&", "||", "!", "(", ")", "\x7b", "\x7d", "[", "]",
   "^", "\"", "~", "*", "?", ":", "/"]

/-- Go `strings.Contains` on character lists. -/
def containsSub (pat : List Char) : List Char → Bool
  | [] => pat.isEmpty
  | c :: rest => pat.isPrefixOf (c :: rest) || containsSub pat rest

/-- Go `strings.ReplaceAll`: left-to-right, non-overlapping replacement.
The fuel starts at the subject's length, which bounds the number of steps
(every step consumes at least one character). -/
def replaceAllAux (pat rep : List Char) : Nat → List Char → List Char
  | 0, s => s
  | fuel + 1, s =>
    match s with
    | [] => []
    | c :: rest =>
      if pat ≠ [] ∧ pat.isPrefixOf (c :: rest) then
        rep ++ replaceAllAux pat rep fuel (List.drop pat.length (c :: rest))
      else
        c :: replaceAllAux pat rep fuel rest

def strContains (s pat : String) : Bool := containsSub pat.data s.data

def strReplaceAll (s pat rep : String) : String :=
  String.mk (replaceAllAux pat.data rep.data s.data.length s.data)

/-- Go: `func sanitizeElasticQueryField(keyword string) string`. -/
def sanitizeElasticQueryField (keyword : String) : String :=
  reserved.foldl
    (fun sanitizedKeyword char =>
      if strContains sanitizedKeyword char then
        strReplaceAll sanitizedKeyword char ("\\" ++ char)
      else sanitizedKeyword)
    keyword

/-- C4: each reserved token is escaped as a whole unit. -/
theorem sanitize_reserved_tokens :
    (∀ c ∈ reserved,
      sanitizeElasticQueryField ("a" ++ c ++ "b") = "a" ++ "\\" ++ c ++ "b") ∧
    sanitizeElasticQueryField "plain" = "plain" ∧
    sanitizeElasticQueryField "kimchy!" = "kimchy\\!" := by
  refine ⟨?_, by decide, by decide⟩
  decide

/-- Witness for C4 at the two-character token `&&`. -/
theorem sanitize_reserved_tokens_witness :
    sanitizeElasticQueryField "a&&b" = "a" ++ "\\" ++ "&&" ++ "b" :=
  sanitize_reserved_tokens.1 "&&" (by decide)

/-! ## The data model

`QueryItem.Value` is `interface{}` in Go; `GoValue` is its closed model.
Field `Type` is spelled `Typ` (`Type` is reserved in Lean); all other field
names are kept.  The `GoValues`/`QueryItems` inductives are Lean spellings
of `[]interface{}` and `[]QueryItem` inside the mutual block. -/

mutual
inductive GoValue where
  | str : String → GoValue
  | int : Int → GoValue
  | boolean : Bool → GoValue
  | list : GoValues → GoValue
  | strMap : List (String × String) → GoValue
  | doc : QueryDoc → GoValue
  | item : QueryItem → GoValue
  | nestedItem : NestedQueryItem → GoValue
  | hasChildItem : HasChildQueryItem → GoValue

inductive GoValues where
  | nil : GoValues
  | cons : GoValue → GoValues → GoValues

inductive QueryItem where
  | mk : String → GoValue → QueryType → QueryItem

inductive QueryItems where
  | nil : QueryItems
  | cons : QueryItem → QueryItems → QueryItems

inductive QueryDoc where
  | mk : String → Int → Int → List (List (String × String)) → GoValues →
         QueryItems → QueryItems → QueryItems → QueryItems → Int → QueryDoc

inductive NestedQueryItem where
  | mk : QueryItems → QueryItems → QueryItems → QueryItems → NestedQueryItem

inductive HasChildQueryItem where
  | mk : QueryItem → String → HasChildQueryItem
end

def QueryItem.Field : QueryItem → String
  | .mk f _ _ => f

def QueryItem.Value : QueryItem → GoValue
  | .mk _ v _ => v

def QueryItem.Typ : QueryItem → QueryType
  | .mk _ _ t => t

def QueryDoc.Index : QueryDoc → String
  | .mk i _ _ _ _ _ _ _ _ _ => i

def QueryDoc.Size : QueryDoc → Int
  | .mk _ s _ _ _ _ _ _ _ _ => s

def QueryDoc.From : QueryDoc → Int
  | .mk _ _ f _ _ _ _ _ _ _ => f

def QueryDoc.Sort : QueryDoc → List (List (String × String))
  | .mk _ _ _ s _ _ _ _ _ _ => s

def QueryDoc.SearchAfter : QueryDoc → GoValues
  | .mk _ _ _ _ sa _ _ _ _ _ => sa

def QueryDoc.And : QueryDoc → QueryItems
  | .mk _ _ _ _ _ a _ _ _ _ => a

def QueryDoc.Not : QueryDoc → QueryItems
  | .mk _ _ _ _ _ _ n _ _ _ => n

def QueryDoc.Or : QueryDoc → QueryItems
  | .mk _ _ _ _ _ _ _ o _ _ => o

def QueryDoc.Filter : QueryDoc → QueryItems
  | .mk _ _ _ _ _ _ _ _ f _ => f

def QueryDoc.PageSize : QueryDoc → Int
  | .mk _ _ _ _ _ _ _ _ _ p => p

def NestedQueryItem.And : NestedQueryItem → QueryItems
  | .mk a _ _ _ => a

def NestedQueryItem.Not : NestedQueryItem → QueryItems
  | .mk _ n _ _ => n

def NestedQueryItem.Or : NestedQueryItem → QueryItems
  | .mk _ _ o _ => o

def NestedQueryItem.Filter : NestedQueryItem → QueryItems
  | .mk _ _ _ f => f

def HasChildQueryItem.Query : HasChildQueryItem → QueryItem
  | .mk q _ => q

def HasChildQueryItem.Typ : HasChildQueryItem → String
  | .mk _ t => t

def QueryItems.toList : QueryItems → List QueryItem
  | .nil => []
  | .cons x xs => x :: QueryItems.toList xs

def QueryItems.isNil : QueryItems → Bool
  | .nil => true
  | .cons _ _ => false

def GoValues.isNil : GoValues → Bool
  | .nil => true
  | .cons _ _ => false

/-- Value-shape test for the `nested_query` type assertion
`q.Value.(NestedQueryItem)`. -/
def isNestedItemValue : GoValue → Bool
  | .nestedItem _ => true
  | _ => false

/-- Value-shape test for the (spec-modelled) `has_child` type assertion. -/
def isHasChildItemValue : GoValue → Bool
  | .hasChildItem _ => true
  | _ => false

/-! ## Intermediate marshalling structures -/

/-- Go: `type leafQuery struct { Type QueryType; Name string; Value interface{} }`. -/
structure leafQuery where
  Typ : QueryType
  Name : String
  Value : GoValue

/-- Go: `type boolWrap struct { ... }` (fields tagged
`must`, `must_not`, `should`, `filter`, all `omitempty`). -/
structure boolWrap where
  AndList : List leafQuery
  NotList : List leafQuery
  OrList : List leafQuery
  FilterList : List leafQuery

/-- Go: `type queryWrap struct { Bool boolWrap }` (field tagged `bool`);
the field is spelled `boolW` (`Bool` is taken in Lean). -/
structure queryWrap where
  boolW : boolWrap

/-- Go: `func updateList(queryItems []QueryItem) []leafQuery`, an in-order
copy of each item's `Type`/`Field`/`Value` into a fresh `leafQuery`. -/
def updateList : QueryItems → List leafQuery
  | .nil => []
  | .cons item rest =>
      { Typ := item.Typ, Name := item.Field, Value := item.Value } :: updateList rest

/-- Go: `func getWrappedQuery(query query) queryWrap`, with the `query`
interface's four role-list accessors passed explicitly.  Each slot is filled
only for a non-empty role list (`len(...) > 0`). -/
def getWrappedQuery (als nls ols fls : QueryItems) : queryWrap :=
  { boolW :=
    { AndList := match als with | .nil => [] | _ => updateList als
      NotList := match nls with | .nil => [] | _ => updateList nls
      OrList := match ols with | .nil => [] | _ => updateList ols
      FilterList := match fls with | .nil => [] | _ => updateList fls } }

/-- `getWrappedQuery` at a `QueryDoc` receiver (Go interface dispatch). -/
def getWrappedQueryDoc (d : QueryDoc) : queryWrap :=
  getWrappedQuery d.And d.Not d.Or d.Filter

/-- `getWrappedQuery` at a `NestedQueryItem` receiver (Go interface dispatch). -/
def getWrappedQueryNested (n : NestedQueryItem) : queryWrap :=
  getWrappedQuery n.And n.Not n.Or n.Filter

/-! ## Pure marshalling helpers -/

/-- Insertion of one map entry into a key-sorted entry list. -/
def insertByKey (p : String × String) : List (String × String) → List (String × String)
  | [] => [p]
  | q :: rest => if p.1 ≤ q.1 then p :: q :: rest else q :: insertByKey p rest

/-- `encoding/json` marshals Go maps with keys in sorted order. -/
def sortByKey (l : List (String × String)) : List (String × String) :=
  l.foldr insertByKey []

/-- Marshal a `map[string]string` value. -/
def strMapToJSON (m : List (String × String)) : JSON :=
  JSON.obj ((sortByKey m).map (fun p => (p.1, JSON.jstr p.2)))

/-- Marshal the `Sort []map[string]string` field. -/
def sortToJSON (sort : List (List (String × String))) : JSON :=
  JSON.arr (sort.map strMapToJSON)

/-- Go: `func (q leafQuery) handleMarshalQueryString(queryType string)`.
The inner object is a Go map, so its keys appear sorted
(`analyze_wildcard` < `fields` < `query`); `q.Value.(string)` is an
unchecked type assertion and panics on a non-string value. -/
def handleMarshalQueryString (q : leafQuery) (queryType : String) : RResult JSON :=
  match q.Value with
  | .str s =>
      .ok (JSON.obj [(queryType, JSON.obj
        [("analyze_wildcard", .jbool true),
         ("fields", JSON.arr [.jstr q.Name]),
         ("query", .jstr (sanitizeElasticQueryField s))])])
  | _ => .gopanic .typeAssertionFailed

/-! ## The recursive marshaller

One Lean function per Go function; the shared fuel parameter makes the
mutual recursion through `interface{}` values structural.  Every call steps
the fuel down by one, so any terminating Go computation is reproduced
exactly by all sufficiently large fuels. -/

mutual
/-- `json.Marshal` on an `interface{}` value (no custom marshaller case
falls through to the generic encoder; `QueryDoc` has a custom marshaller). -/
def marshalValue : Nat → GoValue → RResult JSON
  | 0, _ => .outOfFuel
  | fuel + 1, v =>
    match v with
    | .str s => .ok (.jstr s)
    | .int n => .ok (.jint n)
    | .boolean b => .ok (.jbool b)
    | .list xs => (marshalValues fuel xs).map JSON.arr
    | .strMap m => .ok (strMapToJSON m)
    | .doc d => queryDocMarshalJSON fuel d
    | .item it =>
        (marshalValue fuel it.Value).map (fun jv =>
          JSON.obj [("Field", .jstr it.Field), ("Value", jv), ("Type", .jint it.Typ)])
    | .nestedItem n =>
        (marshalItemsPlain fuel n.And).bind (fun ja =>
        (marshalItemsPlain fuel n.Not).bind (fun jn =>
        (marshalItemsPlain fuel n.Or).bind (fun jo =>
        (marshalItemsPlain fuel n.Filter).map (fun jf =>
          JSON.obj [("And", ja), ("Not", jn), ("Or", jo), ("Filter", jf)]))))
    | .hasChildItem h =>
        (marshalValue fuel (.item h.Query)).map (fun jq =>
          JSON.obj [("Query", jq), ("Type", .jstr h.Typ)])

/-- Elementwise `json.Marshal` of `[]interface{}`. -/
def marshalValues : Nat → GoValues → RResult (List JSON)
  | 0, _ => .outOfFuel
  | _ + 1, .nil => .ok []
  | fuel + 1, .cons x xs =>
      (marshalValue fuel x).bind (fun j =>
        (marshalValues fuel xs).map (fun js => j :: js))

/-- Elementwise `json.Marshal` of `[]QueryItem`. -/
def marshalItemsList : Nat → QueryItems → RResult (List JSON)
  | 0, _ => .outOfFuel
  | _ + 1, .nil => .ok []
  | fuel + 1, .cons x xs =>
      (marshalValue fuel (.item x)).bind (fun j =>
        (marshalItemsList fuel xs).map (fun js => j :: js))

/-- `json.Marshal` of a `[]QueryItem` struct field without `omitempty`
(a zero-valued nil slice marshals as `null`). -/
def marshalItemsPlain : Nat → QueryItems → RResult JSON
  | 0, _ => .outOfFuel
  | _ + 1, .nil => .ok .jnull
  | fuel + 1, items => (marshalItemsList fuel items).map JSON.arr

/-- Go: `func (q leafQuery) MarshalJSON() ([]byte, error)`.  The `Nested`
kind short-circuits before kind resolution and performs the unchecked
assertion `q.Value.(QueryDoc)`; every other kind is resolved by
`QueryType.String` first. -/
def leafQueryMarshalJSON : Nat → leafQuery → RResult JSON
  | 0, _ => .outOfFuel
  | fuel + 1, q =>
    if q.Typ = Nested then
      match q.Value with
      | .doc d => wrappedQueryMarshal fuel (getWrappedQueryDoc d)
      | _ => .gopanic .typeAssertionFailed
    else
      match queryTypeString q.Typ with
      | .ok queryType => handleMarshalType fuel q queryType
      | .err e => .err e
      | .gopanic p => .gopanic p
      | .outOfFuel => .outOfFuel

/-- Go: `func (q leafQuery) handleMarshalType(queryType string)`.  The
receiver is a value copy: the wildcard lowercasing updates only the local
`q`.  Dispatches to the query-string and nested-query handlers, otherwise
emits the generic leaf shape. -/
def handleMarshalType : Nat → leafQuery → String → RResult JSON
  | 0, _, _ => .outOfFuel
  | fuel + 1, q0, queryType =>
    let q :=
      if q0.Typ = Wildcard then
        match q0.Value with
        | .str s => { q0 with Value := .str s.toLower }
        | _ => q0
      else q0
    if q.Typ = QueryString then handleMarshalQueryString q queryType
    else if q.Typ = NestedQuery then handleMarshalNestedQuery fuel q
    else
      (marshalValue fuel q.Value).map (fun jv =>
        JSON.obj [(queryType, JSON.obj [(q.Name, jv)])])

/-- Go: `func (q leafQuery) handleMarshalNestedQuery()`.  The checked
assertion `q.Value.(NestedQueryItem)` returns
`&QueryTypeErr{typeVal: NestedQuery}` on mismatch; the wrapper's keys come
from a Go map, hence sorted (`path` < `query`). -/
def handleMarshalNestedQuery : Nat → leafQuery → RResult JSON
  | 0, _ => .outOfFuel
  | fuel + 1, q =>
    match q.Value with
    | .nestedItem item =>
        (wrappedQueryMarshal fuel (getWrappedQueryNested item)).map (fun qj =>
          JSON.obj [("nested", JSON.obj
            [("path", JSON.arr [.jstr q.Name]), ("query", qj)])])
    | _ => .err { typeVal := NestedQuery }

/-- Elementwise marshal of `[]leafQuery` (each element through the custom
`leafQuery.MarshalJSON`); the first failure aborts. -/
def marshalLeaves : Nat → List leafQuery → RResult (List JSON)
  | 0, _ => .outOfFuel
  | _ + 1, [] => .ok []
  | fuel + 1, q :: rest =>
      (leafQueryMarshalJSON fuel q).bind (fun j =>
        (marshalLeaves fuel rest).map (fun js => j :: js))

/-- One `omitempty`-tagged `[]leafQuery` field of `boolWrap`: an empty
slice contributes no key, a non-empty one contributes `key: [...]`. -/
def marshalRole : Nat → String → List leafQuery → RResult (List (String × JSON))
  | 0, _, _ => .outOfFuel
  | fuel + 1, key, l =>
    match l with
    | [] => .ok []
    | _ => (marshalLeaves fuel l).map (fun js => [(key, JSON.arr js)])

/-- `json.Marshal` of a `queryWrap`: `{"bool": {...}}` with the four role
fields in struct declaration order. -/
def wrappedQueryMarshal : Nat → queryWrap → RResult JSON
  | 0, _ => .outOfFuel
  | fuel + 1, qw =>
      (marshalRole fuel "must" qw.boolW.AndList).bind (fun m =>
      (marshalRole fuel "must_not" qw.boolW.NotList).bind (fun mn =>
      (marshalRole fuel "should" qw.boolW.OrList).bind (fun sh =>
      (marshalRole fuel "filter" qw.boolW.FilterList).map (fun fl =>
        JSON.obj [("bool", JSON.obj (m ++ mn ++ sh ++ fl))]))))

/-- Go: `func (query QueryDoc) MarshalJSON() ([]byte, error)`, i.e.
`json.Marshal` of the `queryReqDoc` struct: fields `query`, `size`,
`from`, `sort`, `search_after` in declaration order, the last four
`omitempty`; `PageSize` is not part of `queryReqDoc`. -/
def queryDocMarshalJSON : Nat → QueryDoc → RResult JSON
  | 0, _ => .outOfFuel
  | fuel + 1, d =>
      (wrappedQueryMarshal fuel (getWrappedQueryDoc d)).bind (fun qw =>
      (match d.SearchAfter with
       | GoValues.nil => (RResult.ok [] : RResult (List (String × JSON)))
       | sa => (marshalValues fuel sa).map (fun js => [("search_after", JSON.arr js)])).map
        (fun saf =>
          JSON.obj ([("query", qw)] ++
            (if d.Size = 0 then [] else [("size", JSON.jint d.Size)]) ++
            (if d.From = 0 then [] else [("from", JSON.jint d.From)]) ++
            (match d.Sort with | [] => [] | _ => [("sort", sortToJSON d.Sort)]) ++
            saf)))
end

/-- Go: `func MultiSearchDoc(queries []QueryDoc) (string, error)`: for each
document a `{"index":"..."}` header line (built by `fmt.Sprintf`, no JSON
escaping) then the document body, each line newline-terminated; the first
marshal error aborts with no output. -/
def MultiSearchDoc (fuel : Nat) : List QueryDoc → RResult String
  | [] => .ok ""
  | q :: rest =>
      (queryDocMarshalJSON fuel q).bind (fun body =>
        (MultiSearchDoc fuel rest).map (fun tail =>
          "\x7b\"index\":\"" ++ q.Index ++ "\"\x7d" ++ "\n" ++
            jsonToString body ++ "\n" ++ tail))

/-- Modelled from the spec: the `has_child` clause renderer is absent from
the provided sources (only the tests exercising `HasChild` and
`HasChildQueryItem` are present).  Per the spec it renders
`{"has_child": {"query": <rendered wrapped sub-query>, "type": name}}`
(map keys sorted: `query` < `type`) and fails with the kind-tagged error
when the value is not a `HasChildQueryItem`. -/
def handleMarshalHasChild (fuel : Nat) (q : leafQuery) : RResult JSON :=
  match q.Value with
  | .hasChildItem item =>
      (leafQueryMarshalJSON fuel
          { Typ := item.Query.Typ, Name := item.Query.Field, Value := item.Query.Value }).map
        (fun qj =>
          JSON.obj [("has_child", JSON.obj
            [("query", qj), ("type", .jstr item.Typ)])])
  | _ => .err { typeVal := HasChild }

/-! ## Statement-side definitions -/

/-- `js` is the in-order list of renderings of the clauses of `items`
(positional, so order is preserved and nothing is dropped or deduplicated). -/
def RendersSeq (items : QueryItems) (js : List JSON) : Prop :=
  List.Forall₂
    (fun it j => ∃ f, leafQueryMarshalJSON f
      { Typ := it.Typ, Name := it.Field, Value := it.Value } = .ok j)
    items.toList js

/-- Concatenation of a list of text blocks. -/
def concatStrings : List String → String
  | [] => ""
  | s :: rest => s ++ concatStrings rest

/-- Effectful map over a list: the first failure aborts the whole call. -/
def mapRR (f : α → RResult β) : List α → RResult (List β)
  | [] => .ok []
  | x :: xs => (f x).bind (fun y => (mapRR f xs).map (fun ys => y :: ys))

/-! ## Helper lemmas -/

@[simp] theorem RResult.bind_ok (a : α) (f : α → RResult β) :
    (RResult.ok a).bind f = f a := rfl

@[simp] theorem RResult.bind_err (e : QueryTypeErr) (f : α → RResult β) :
    (RResult.err e : RResult α).bind f = .err e := rfl

@[simp] theorem RResult.bind_gopanic (p : GoPanic) (f : α → RResult β) :
    (RResult.gopanic p : RResult α).bind f = .gopanic p := rfl

@[simp] theorem RResult.bind_outOfFuel (f : α → RResult β) :
    (RResult.outOfFuel : RResult α).bind f = .outOfFuel := rfl

@[simp] theorem RResult.map_ok (g : α → β) (a : α) :
    (RResult.ok a).map g = .ok (g a) := rfl

@[simp] theorem RResult.map_err (g : α → β) (e : QueryTypeErr) :
    (RResult.err e : RResult α).map g = .err e := rfl

@[simp] theorem RResult.map_gopanic (g : α → β) (p : GoPanic) :
    (RResult.gopanic p : RResult α).map g = .gopanic p := rfl

@[simp] theorem RResult.map_outOfFuel (g : α → β) :
    (RResult.outOfFuel : RResult α).map g = .outOfFuel := rfl

@[simp] theorem JFields.keys_ofList (l : List (String × JSON)) :
    (JFields.ofList l).keys = l.map Prod.fst := by
  induction l with
  | nil => rfl
  | cons p rest ih => cases p; simp [JFields.ofList, JFields.keys, ih]

theorem updateList_eq_map : ∀ items : QueryItems,
    updateList items =
      items.toList.map (fun it => { Typ := it.Typ, Name := it.Field, Value := it.Value })
  | .nil => rfl
  | .cons x xs => by simp [updateList, QueryItems.toList, updateList_eq_map xs]

theorem marshalLeaves_forall₂ {fuel : Nat} {l : List leafQuery} {js : List JSON}
    (h : marshalLeaves fuel l = .ok js) :
    List.Forall₂ (fun q j => ∃ f, leafQueryMarshalJSON f q = .ok j) l js := by
  induction l generalizing fuel js with
  | nil =>
    cases fuel with
    | zero => simp [marshalLeaves] at h
    | succ f => simp [marshalLeaves] at h; simp [← h]
  | cons q rest ih =>
    cases fuel with
    | zero => simp [marshalLeaves] at h
    | succ f =>
      rw [marshalLeaves] at h
      cases hq : leafQueryMarshalJSON f q <;> rw [hq] at h <;>
        simp [RResult.bind] at h
      cases hr : marshalLeaves f rest <;> rw [hr] at h <;>
        simp [RResult.map] at h
      subst h
      exact List.Forall₂.cons ⟨f, hq⟩ (ih hr)

theorem marshalRole_cases {fuel : Nat} {key : String} {l : List leafQuery}
    {ps : List (String × JSON)} (h : marshalRole fuel key l = .ok ps) :
    (l = [] ∧ ps = []) ∨
    ∃ js, List.Forall₂ (fun q j => ∃ f, leafQueryMarshalJSON f q = .ok j) l js ∧
          ps = [(key, JSON.arr js)] := by
  cases fuel with
  | zero => simp [marshalRole] at h
  | succ f =>
    cases l with
    | nil => left; simp [marshalRole] at h; simp [← h]
    | cons q rest =>
      right
      simp only [marshalRole] at h
      cases hm : marshalLeaves f (q :: rest) <;> rw [hm] at h <;>
        simp [RResult.map] at h
      exact ⟨_, marshalLeaves_forall₂ hm, h.symm⟩

theorem role_part {fuel : Nat} {key : String} {items : QueryItems}
    {ps : List (String × JSON)}
    (h : marshalRole fuel key
      (match items with | .nil => [] | _ => updateList items) = .ok ps) :
    ∃ js, ps = (if items.isNil then [] else [(key, JSON.arr js)]) ∧
          RendersSeq items js := by
  cases items with
  | nil =>
    refine ⟨[], ?_, List.Forall₂.nil⟩
    cases fuel with
    | zero => simp [marshalRole] at h
    | succ f => simp [marshalRole] at h; simp [QueryItems.isNil, ← h]
  | cons x xs =>
    rcases marshalRole_cases h with ⟨hl, _⟩ | ⟨js, hf, hps⟩
    · simp [updateList] at hl
    · refine ⟨js, by simp [QueryItems.isNil, hps], ?_⟩
      rw [updateList_eq_map] at hf
      exact (List.forall₂_map_left_iff).mp hf

theorem bind_eq_ok {r : RResult α} {f : α → RResult β} {b : β}
    (h : r.bind f = .ok b) : ∃ a, r = .ok a ∧ f a = .ok b := by
  cases r with
  | ok a => exact ⟨a, rfl, h⟩
  | err e => simp [RResult.bind] at h
  | gopanic p => simp [RResult.bind] at h
  | outOfFuel => simp [RResult.bind] at h

theorem map_eq_ok {r : RResult α} {g : α → β} {b : β}
    (h : r.map g = .ok b) : ∃ a, r = .ok a ∧ g a = b := by
  cases r with
  | ok a => exact ⟨a, rfl, by simpa [RResult.map] using h⟩
  | err e => simp [RResult.map] at h
  | gopanic p => simp [RResult.map] at h
  | outOfFuel => simp [RResult.map] at h

/-! ## Claim theorems -/

/-- C1 (code bug evidence): the kind registry's bounds check is
`int(qt) > len(convs)`, so the kind value `9` — the value immediately after
the last enumerated constant `NestedQuery = 8` — escapes the error path and
panics on the out-of-range index `convs[9]`, while values strictly above
`len(convs)` such as `100001` do return `UnsupportedKindError` carrying the
kind, also from a whole-document render. -/
theorem kind_bounds_check_bug :
    (∀ (fuel : Nat) (n : String) (v : GoValue),
      leafQueryMarshalJSON (fuel + 1) { Typ := 9, Name := n, Value := v } =
        .gopanic .indexOutOfRange) ∧
    (∀ (fuel : Nat) (n : String) (v : GoValue),
      leafQueryMarshalJSON (fuel + 1) { Typ := 100001, Name := n, Value := v } =
        .err { typeVal := 100001 }) ∧
    queryDocMarshalJSON 6
      (.mk "some_index" 0 0 [[("id", "asc")]] .nil
        (.cons (.mk "some_index_id" (.str "some-long-key-id-value") 100001) .nil)
        .nil .nil .nil 0) =
      .err { typeVal := 100001 } := by
  refine ⟨fun fuel n v => ?_, fun fuel n v => ?_, by decide⟩ <;> rfl

/-- C2 counterexample: a `nested`-kind clause renders as the bare bool wrap
of its sub-document, not as the `{"nested": {"path": ..., "query": ...}}`
shape the claim asserts for both container kinds. -/
theorem nested_kind_not_path_wrapped_cex :
    leafQueryMarshalJSON 10
        { Typ := Nested, Name := "nested_path",
          Value := .doc (.mk "" 0 0 [] .nil
            (.cons (.mk "a" (.str "v") Match) .nil) .nil .nil .nil 0) } =
      .ok (JSON.obj [("bool", JSON.obj [("must",
            JSON.arr [JSON.obj [("match", JSON.obj [("a", .jstr "v")])]])])]) ∧
    ∀ qj : JSON,
      leafQueryMarshalJSON 10
          { Typ := Nested, Name := "nested_path",
            Value := .doc (.mk "" 0 0 [] .nil
              (.cons (.mk "a" (.str "v") Match) .nil) .nil .nil .nil 0) } ≠
        .ok (JSON.obj [("nested", JSON.obj
          [("path", JSON.arr [.jstr "nested_path"]), ("query", qj)])]) := by
  refine ⟨by decide, fun qj h => ?_⟩
  rw [show leafQueryMarshalJSON 10
        { Typ := Nested, Name := "nested_path",
          Value := .doc (.mk "" 0 0 [] .nil
            (.cons (.mk "a" (.str "v") Match) .nil) .nil .nil .nil 0) } =
      .ok (JSON.obj [("bool", JSON.obj [("must",
            JSON.arr [JSON.obj [("match", JSON.obj [("a", .jstr "v")])]])])])
    from by decide] at h
  have hkeys := congrArg
    (fun r => match r with | RResult.ok j => jsonTopKeys j | _ => ([] : List String)) h
  simp [jsonTopKeys, JSON.obj, JFields.ofList, JFields.keys] at hkeys

/-- C2 amended: a `nested_query` clause with a `NestedQueryItem` value
renders to `{"nested": {"path": [field], "query": <bool render>}}`, while a
`nested` clause with a `QueryDoc` value renders to the bare bool wrap of
the sub-document (its field name is unused); the two kinds do not share an
output shape. -/
theorem nested_kinds_rendering :
    (∀ (fuel : Nat) (n : String) (d : QueryDoc),
      leafQueryMarshalJSON (fuel + 1) { Typ := Nested, Name := n, Value := .doc d } =
        wrappedQueryMarshal fuel (getWrappedQueryDoc d)) ∧
    (∀ (fuel : Nat) (n : String) (ni : NestedQueryItem),
      leafQueryMarshalJSON (fuel + 3)
          { Typ := NestedQuery, Name := n, Value := .nestedItem ni } =
        (wrappedQueryMarshal fuel (getWrappedQueryNested ni)).map (fun qj =>
          JSON.obj [("nested", JSON.obj
            [("path", JSON.arr [.jstr n]), ("query", qj)])])) := by
  exact ⟨fun fuel n d => rfl, fun fuel n ni => rfl⟩

/-- C3 counterexample: the `nested` container kind with a mismatched value
(a plain leaf clause) panics on the unchecked assertion `q.Value.(QueryDoc)`
instead of returning a type-mismatch error to the caller. -/
theorem nested_container_mismatch_panics_cex :
    leafQueryMarshalJSON 5
        { Typ := Nested, Name := "f",
          Value := .item (.mk "Field1" (.str "some-text") Match) } =
      .gopanic .typeAssertionFailed ∧
    ∀ e : QueryTypeErr,
      leafQueryMarshalJSON 5
          { Typ := Nested, Name := "f",
            Value := .item (.mk "Field1" (.str "some-text") Match) } ≠
        .err e := by
  refine ⟨by decide, fun e h => ?_⟩
  rw [show leafQueryMarshalJSON 5
        { Typ := Nested, Name := "f",
          Value := .item (.mk "Field1" (.str "some-text") Match) } =
      .gopanic .typeAssertionFailed from by decide] at h
  exact RResult.noConfusion h

/-- C3 amended: for the container kinds having a checked assertion —
`nested_query` in the sources, `has_child` modelled from the spec — a value
without the expected shape makes rendering return the kind-tagged error
(`QueryTypeErr`), never a silent empty render; for the `nested` kind a
mismatched value panics instead (see the counterexample). -/
theorem container_mismatch_errors :
    (∀ (fuel : Nat) (n : String) (v : GoValue), isNestedItemValue v = false →
      leafQueryMarshalJSON (fuel + 3) { Typ := NestedQuery, Name := n, Value := v } =
        .err { typeVal := NestedQuery }) ∧
    (∀ (fuel : Nat) (n : String) (v : GoValue), isHasChildItemValue v = false →
      handleMarshalHasChild fuel { Typ := HasChild, Name := n, Value := v } =
        .err { typeVal := HasChild }) := by
  constructor
  · intro fuel n v h
    cases v <;> first
      | rfl
      | simp [isNestedItemValue] at h
  · intro fuel n v h
    cases v <;> first
      | rfl
      | simp [isHasChildItemValue] at h

/-- Witness for C3 at a string-valued `nested_query` clause and an
item-valued `has_child` clause. -/
theorem container_mismatch_errors_witness :
    leafQueryMarshalJSON 7 { Typ := NestedQuery, Name := "f", Value := .str "x" } =
      .err { typeVal := NestedQuery } ∧
    handleMarshalHasChild 7
        { Typ := HasChild, Name := "f",
          Value := .item (.mk "Field1" (.str "some-text") Match) } =
      .err { typeVal := HasChild } :=
  ⟨container_mismatch_errors.1 4 "f" (.str "x") (by decide),
   container_mismatch_errors.2 7 "f" (.item (.mk "Field1" (.str "some-text") Match))
     (by decide)⟩

/-- C5: a `query_string` clause with a string value renders to
`{"query_string": {"analyze_wildcard": true, "fields": [field],
"query": sanitize(value)}}` — the field list is exactly one element and
only the value is escaped — while the plain leaf kinds pass their value
through the generic encoder unchanged; the whole-document render of the
`TestQueryStringEsc` scenario serializes to the exact expected text. -/
theorem query_string_rendering :
    (∀ (fuel : Nat) (n s : String),
      leafQueryMarshalJSON (fuel + 2) { Typ := QueryString, Name := n, Value := .str s } =
        .ok (JSON.obj [("query_string", JSON.obj
          [("analyze_wildcard", .jbool true),
           ("fields", JSON.arr [.jstr n]),
           ("query", .jstr (sanitizeElasticQueryField s))])])) ∧
    (∀ (fuel : Nat) (n : String) (v : GoValue),
      leafQueryMarshalJSON (fuel + 2) { Typ := Match, Name := n, Value := v } =
        (marshalValue fuel v).map (fun jv =>
          JSON.obj [("match", JSON.obj [(n, jv)])])) ∧
    (∀ (fuel : Nat) (n : String) (v : GoValue),
      leafQueryMarshalJSON (fuel + 2) { Typ := Term, Name := n, Value := v } =
        (marshalValue fuel v).map (fun jv =>
          JSON.obj [("term", JSON.obj [(n, jv)])])) ∧
    (∀ (fuel : Nat) (n : String) (v : GoValue),
      leafQueryMarshalJSON (fuel + 2) { Typ := Terms, Name := n, Value := v } =
        (marshalValue fuel v).map (fun jv =>
          JSON.obj [("terms", JSON.obj [(n, jv)])])) ∧
    (∀ (fuel : Nat) (n : String) (v : GoValue),
      leafQueryMarshalJSON (fuel + 2) { Typ := Range, Name := n, Value := v } =
        (marshalValue fuel v).map (fun jv =>
          JSON.obj [("range", JSON.obj [(n, jv)])])) ∧
    (∀ (fuel : Nat) (n : String) (v : GoValue),
      leafQueryMarshalJSON (fuel + 2) { Typ := ExistsKind, Name := n, Value := v } =
        (marshalValue fuel v).map (fun jv =>
          JSON.obj [("exists", JSON.obj [(n, jv)])])) ∧
    (queryDocMarshalJSON 8
        (.mk "some_index" 0 0 [] .nil
          (.cons (.mk "user.id" (.str "kimchy!") QueryString) .nil)
          .nil .nil .nil 0)).map jsonToString =
      .ok "\x7b\"query\":\x7b\"bool\":\x7b\"must\":[\x7b\"query_string\":\x7b\"analyze_wildcard\":true,\"fields\":[\"user.id\"],\"query\":\"kimchy\\\\!\"\x7d\x7d]\x7d\x7d\x7d" := by
  exact ⟨fun fuel n s => rfl, fun fuel n v => rfl, fun fuel n v => rfl,
    fun fuel n v => rfl, fun fuel n v => rfl, fun fuel n v => rfl, by decide⟩

/-- C9: a `wildcard` clause with a string value renders with the value
lowercased; the lowering happens on the renderer's local copy — the
rendering pipeline consumes a field-by-field copy of each caller `QueryItem`
(`updateList`), so no caller-owned structure is changed — and a non-string
wildcard value passes through untouched. -/
theorem wildcard_lowercasing_local :
    (∀ (fuel : Nat) (n s : String),
      leafQueryMarshalJSON (fuel + 3) { Typ := Wildcard, Name := n, Value := .str s } =
        .ok (JSON.obj [("wildcard", JSON.obj [(n, .jstr s.toLower)])])) ∧
    (∀ items : QueryItems,
      updateList items = items.toList.map (fun it =>
        { Typ := it.Typ, Name := it.Field, Value := it.Value })) ∧
    (∀ (fuel : Nat) (n : String) (k : Int),
      leafQueryMarshalJSON (fuel + 3) { Typ := Wildcard, Name := n, Value := .int k } =
        .ok (JSON.obj [("wildcard", JSON.obj [(n, .jint k)])])) := by
  exact ⟨fun fuel n s => rfl, updateList_eq_map, fun fuel n k => rfl⟩

/-- C10: the unchecked type assertions `q.Value.(QueryDoc)` (for `nested`)
and `q.Value.(string)` (for `query_string`) abort with a runtime panic —
neither a result nor an error value — and the panic propagates through a
whole-document render at the public interface. -/
theorem unchecked_type_assertions_panic :
    leafQueryMarshalJSON 3 { Typ := Nested, Name := "f", Value := .str "x" } =
      .gopanic .typeAssertionFailed ∧
    leafQueryMarshalJSON 3 { Typ := QueryString, Name := "user.id", Value := .int 5 } =
      .gopanic .typeAssertionFailed ∧
    queryDocMarshalJSON 8
        (.mk "some_index" 0 0 [] .nil
          (.cons (.mk "f" (.str "x") Nested) .nil) .nil .nil .nil 0) =
      .gopanic .typeAssertionFailed := by
  exact ⟨by decide, by decide, by decide⟩

/-- C6: the bool container renders exactly the non-empty role lists, under
the wire keys `must`/`must_not`/`should`/`filter` in that slot order, each
as the in-order array of its clauses' renderings (`RendersSeq` is
positional, so order is preserved with no deduplication); an empty role
list contributes no key, and the all-empty container renders as
`{"bool": {}}`. -/
theorem bool_container_rendering :
    (∀ (fuel : Nat) (als nls ols fls : QueryItems) (j : JSON),
      wrappedQueryMarshal fuel (getWrappedQuery als nls ols fls) = .ok j →
      ∃ ja jn jo jf,
        j = JSON.obj [("bool", JSON.obj (
          (if als.isNil then [] else [("must", JSON.arr ja)]) ++
          (if nls.isNil then [] else [("must_not", JSON.arr jn)]) ++
          (if ols.isNil then [] else [("should", JSON.arr jo)]) ++
          (if fls.isNil then [] else [("filter", JSON.arr jf)])))] ∧
        RendersSeq als ja ∧ RendersSeq nls jn ∧ RendersSeq ols jo ∧
        RendersSeq fls jf) ∧
    (∀ fuel : Nat,
      wrappedQueryMarshal (fuel + 2) (getWrappedQuery .nil .nil .nil .nil) =
        .ok (JSON.obj [("bool", JSON.obj [])])) := by
  constructor
  · intro fuel als nls ols fls j h
    cases fuel with
    | zero => simp [wrappedQueryMarshal] at h
    | succ fl =>
      simp only [wrappedQueryMarshal, getWrappedQuery] at h
      obtain ⟨m, h1, h⟩ := bind_eq_ok h
      obtain ⟨mn, h2, h⟩ := bind_eq_ok h
      obtain ⟨sh, h3, h⟩ := bind_eq_ok h
      obtain ⟨fl4, h4, h⟩ := map_eq_ok h
      obtain ⟨ja, hja, hra⟩ := role_part h1
      obtain ⟨jn, hjn, hrn⟩ := role_part h2
      obtain ⟨jo, hjo, hro⟩ := role_part h3
      obtain ⟨jf, hjf, hrf⟩ := role_part h4
      exact ⟨ja, jn, jo, jf, by rw [← h, hja, hjn, hjo, hjf], hra, hrn, hro, hrf⟩
  · intro fuel
    rfl

/-- Witness for C6 at a document with a single `and`-role `match` clause. -/
theorem bool_container_rendering_witness :
    ∃ ja jn jo jf,
      JSON.obj [("bool", JSON.obj [("must",
          JSON.arr [JSON.obj [("match", JSON.obj [("f", JSON.jstr "v")])]])])] =
        JSON.obj [("bool", JSON.obj (
          (if (QueryItems.cons (.mk "f" (.str "v") Match) .nil).isNil then []
            else [("must", JSON.arr ja)]) ++
          (if QueryItems.nil.isNil then [] else [("must_not", JSON.arr jn)]) ++
          (if QueryItems.nil.isNil then [] else [("should", JSON.arr jo)]) ++
          (if QueryItems.nil.isNil then [] else [("filter", JSON.arr jf)])))] ∧
      RendersSeq (QueryItems.cons (.mk "f" (.str "v") Match) .nil) ja ∧
      RendersSeq .nil jn ∧ RendersSeq .nil jo ∧ RendersSeq .nil jf :=
  bool_container_rendering.1 10
    (QueryItems.cons (.mk "f" (.str "v") Match) .nil) .nil .nil .nil
    (JSON.obj [("bool", JSON.obj [("must",
      JSON.arr [JSON.obj [("match", JSON.obj [("f", JSON.jstr "v")])]])])])
    (by decide)

/-- C7: a successful document render is the envelope
`{"query": ..., "size"?, "from"?, "sort"?, "search_after"?}`: `size` and
`from` appear only when non-zero, `sort` and `search_after` only when
non-empty, and no input ever emits a `page_size` key. -/
theorem query_doc_envelope :
    ∀ (fuel : Nat) (d : QueryDoc) (j : JSON),
      queryDocMarshalJSON fuel d = .ok j →
      ∃ (qj : JSON) (saf : List (String × JSON)),
        j = JSON.obj ([("query", qj)] ++
          (if d.Size = 0 then [] else [("size", JSON.jint d.Size)]) ++
          (if d.From = 0 then [] else [("from", JSON.jint d.From)]) ++
          (if d.Sort.isEmpty then [] else [("sort", sortToJSON d.Sort)]) ++
          saf) ∧
        (d.SearchAfter.isNil = true → saf = []) ∧
        (d.SearchAfter.isNil = false →
          ∃ js : List JSON, saf = [("search_after", JSON.arr js)]) ∧
        "page_size" ∉ jsonTopKeys j := by
  intro fuel d j h
  cases fuel with
  | zero => simp [queryDocMarshalJSON] at h
  | succ fl =>
    rw [queryDocMarshalJSON] at h
    obtain ⟨qw, h1, h⟩ := bind_eq_ok h
    obtain ⟨saf, h2, h⟩ := map_eq_ok h
    cases hsa : d.SearchAfter with
    | nil =>
      rw [hsa] at h2
      simp only at h2
      cases h2
      refine ⟨qw, [], ?_, fun _ => rfl, by simp [GoValues.isNil], ?_⟩
      · rw [← h]
        cases hs : d.Sort <;> simp
      · rw [← h]
        simp only [jsonTopKeys, JSON.obj, JFields.keys_ofList]
        cases hs : d.Sort <;> split_ifs <;> simp
    | cons x xs =>
      rw [hsa] at h2
      simp only at h2
      obtain ⟨js, _, hsaf⟩ := map_eq_ok h2
      subst hsaf
      refine ⟨qw, [("search_after", JSON.arr js)], ?_,
        by simp [GoValues.isNil], fun _ => ⟨js, rfl⟩, ?_⟩
      · rw [← h]
        cases hs : d.Sort <;> simp
      · rw [← h]
        simp only [jsonTopKeys, JSON.obj, JFields.keys_ofList]
        cases hs : d.Sort <;> split_ifs <;> simp

/-- Witness for C7 at a document with `size` set and everything else
zero/empty. -/
theorem query_doc_envelope_witness :
    ∃ (qj : JSON) (saf : List (String × JSON)),
      JSON.obj [("query", JSON.obj [("bool", JSON.obj [])]), ("size", JSON.jint 2)] =
        JSON.obj ([("query", qj)] ++
          (if (QueryDoc.mk "i" 2 0 [] .nil .nil .nil .nil .nil 7).Size = 0 then []
            else [("size", JSON.jint (QueryDoc.mk "i" 2 0 [] .nil .nil .nil .nil .nil 7).Size)]) ++
          (if (QueryDoc.mk "i" 2 0 [] .nil .nil .nil .nil .nil 7).From = 0 then []
            else [("from", JSON.jint (QueryDoc.mk "i" 2 0 [] .nil .nil .nil .nil .nil 7).From)]) ++
          (if (QueryDoc.mk "i" 2 0 [] .nil .nil .nil .nil .nil 7).Sort.isEmpty then []
            else [("sort", sortToJSON (QueryDoc.mk "i" 2 0 [] .nil .nil .nil .nil .nil 7).Sort)]) ++
          saf) ∧
      ((QueryDoc.mk "i" 2 0 [] .nil .nil .nil .nil .nil 7).SearchAfter.isNil = true →
        saf = []) ∧
      ((QueryDoc.mk "i" 2 0 [] .nil .nil .nil .nil .nil 7).SearchAfter.isNil = false →
        ∃ js : List JSON, saf = [("search_after", JSON.arr js)]) ∧
      "page_size" ∉ jsonTopKeys
        (JSON.obj [("query", JSON.obj [("bool", JSON.obj [])]), ("size", JSON.jint 2)]) :=
  query_doc_envelope 5 (QueryDoc.mk "i" 2 0 [] .nil .nil .nil .nil .nil 7)
    (JSON.obj [("query", JSON.obj [("bool", JSON.obj [])]), ("size", JSON.jint 2)])
    (by decide)

set_option maxRecDepth 20000 in
/-- C8: the batch formatter emits, per document in input order, the header
line `{"index":"<doc.index>"}` and the full document body, each
newline-terminated, with nothing in between; the first document failure is
the result of the whole call (`mapRR` short-circuits), with no partial
output.  The concrete two-document scenario of `TestMultiSearchDoc`
serializes to its exact expected text. -/
theorem multi_search_doc_format :
    (∀ (fuel : Nat) (docs : List QueryDoc),
      MultiSearchDoc fuel docs =
        (mapRR (fun d => (queryDocMarshalJSON fuel d).map (fun body =>
            "\x7b\"index\":\"" ++ d.Index ++ "\"\x7d" ++ "\n" ++
              jsonToString body ++ "\n")) docs).map concatStrings) ∧
    MultiSearchDoc 12
        [.mk "index1" 0 0 [] .nil
          (.cons (.mk "user.id" (.str "kimchy!") QueryString) .nil) .nil .nil .nil 0,
         .mk "index2" 0 0 [] .nil
          (.cons (.mk "some_index_id" (.str "some-long-key-id-value") Match) .nil)
          .nil .nil .nil 0] =
      .ok ("\x7b\"index\":\"index1\"\x7d\n\x7b\"query\":\x7b\"bool\":\x7b\"must\":[\x7b\"query_string\":\x7b\"analyze_wildcard\":true,\"fields\":[\"user.id\"],\"query\":\"kimchy\\\\!\"\x7d\x7d]\x7d\x7d\x7d\n\x7b\"index\":\"index2\"\x7d\n\x7b\"query\":\x7b\"bool\":\x7b\"must\":[\x7b\"match\":\x7b\"some_index_id\":\"some-long-key-id-value\"\x7d\x7d]\x7d\x7d\x7d\n") := by
  constructor
  · intro fuel docs
    induction docs with
    | nil => rfl
    | cons q rest ih =>
      rw [MultiSearchDoc, mapRR]
      cases hq : queryDocMarshalJSON fuel q <;>
        simp only [RResult.bind_ok, RResult.bind_err, RResult.bind_gopanic,
          RResult.bind_outOfFuel, RResult.map_ok, RResult.map_err,
          RResult.map_gopanic, RResult.map_outOfFuel]
      case ok body =>
        rw [ih]
        cases hr : mapRR (fun d => (queryDocMarshalJSON fuel d).map (fun body =>
            "\x7b\"index\":\"" ++ d.Index ++ "\"\x7d" ++ "\n" ++
              jsonToString body ++ "\n")) rest <;>
          simp [RResult.map, concatStrings, String.append_assoc]
  · decide

end Esquerydsl
